import Mathlib

/-!
Verification of the polar2grid rescaling engine
(`src/polar2grid/core/rescale.py`) against its specification.

Shallow embedding conventions:

* A numpy floating-point value is modelled as `Val := Option ℚ`; `none`
  models the NaN "unscalable" sentinel.  All numpy comparisons involving
  NaN are false, which is mirrored by `valLt`/`valEq` returning `false`
  whenever one operand is `none`; arithmetic propagates `none`.
* A numpy 1-D array is a `List Val`; a boolean mask is a `List Bool`.
  Boolean fancy indexing (`data[mask]`, `data[mask] = vals`) is modelled
  by `maskExtract` and `maskScatter`.
* The `sqrt_scale` function genuinely needs real square roots, so it is
  embedded separately over `Option ℝ` further below.
* Division by zero produces a non-finite float (inf/NaN) in numpy; in
  `valDiv` it is modelled by the invalid sentinel `none`.  No theorem in
  this file exercises a zero denominator.
-/

set_option maxHeartbeats 1000000
set_option autoImplicit false

namespace Polar2Grid

/-- A numpy scalar: `none` models NaN (the "unscalable" sentinel). -/
abbrev Val := Option ℚ

/-- Elementwise addition; NaN propagates. -/
def valAdd : Val → Val → Val
  | some a, some b => some (a + b)
  | _, _ => none

/-- Elementwise subtraction; NaN propagates. -/
def valSub : Val → Val → Val
  | some a, some b => some (a - b)
  | _, _ => none

/-- Elementwise multiplication; NaN propagates. -/
def valMul : Val → Val → Val
  | some a, some b => some (a * b)
  | _, _ => none

/-- Elementwise division; NaN propagates and a zero denominator yields a
non-finite result, modelled as the invalid sentinel. -/
def valDiv : Val → Val → Val
  | some a, some b => if b = 0 then none else some (a / b)
  | _, _ => none

/-- Numpy equality test: any comparison involving NaN is false. -/
def valEq : Val → Val → Bool
  | some a, some b => decide (a = b)
  | _, _ => false

/-- Numpy strict-less test: any comparison involving NaN is false. -/
def valLt : Val → Val → Bool
  | some a, some b => decide (a < b)
  | _, _ => false

/-- Numpy `clip(v, lo, hi) = minimum(maximum(v, lo), hi)`; NaN stays NaN. -/
def clipQ (lo hi : ℚ) (v : Val) : Val :=
  v.map (fun x => min hi (max lo x))

/-- Source `mask_helper(img, fill_value)` applied to one element: when the
fill is NaN it tests for NaN, otherwise it tests equality with the fill. -/
def mask_helper (fill : Val) (v : Val) : Bool :=
  match fill with
  | none => v.isNone
  | some f => valEq v (some f)

/-- Boolean fancy-index read `data[mask]`: the elements at mask-true
positions, in order. -/
def maskExtract : List Val → List Bool → List Val
  | [], _ => []
  | _, [] => []
  | d :: ds, m :: ms => if m then d :: maskExtract ds ms else maskExtract ds ms

/-- Boolean fancy-index write `data[mask] = vals`: replace the elements at
mask-true positions by the elements of `vals`, in order. -/
def maskScatter : List Val → List Bool → List Val → List Val
  | [], _, _ => []
  | ds, [], _ => ds
  | d :: ds, m :: ms, vs =>
    if m then
      match vs with
      | [] => d :: maskScatter ds ms []
      | v :: vs2 => v :: maskScatter ds ms vs2
    else d :: maskScatter ds ms vs

/-- The `mask_clip` keyword of `Rescaler._rescale_data`: Python allows
`None`, `"min"`, `"max"`, `"both"` or `True`. -/
inductive MaskClip
  | noneMC | minMC | maxMC | bothMC | trueMC
deriving DecidableEq

/-- Python test `mask_clip in ["both", "min", True]`. -/
def MaskClip.clipsMin : MaskClip → Bool
  | .bothMC | .minMC | .trueMC => true
  | _ => false

/-- Python test `mask_clip in ["both", "max", True]`. -/
def MaskClip.clipsMax : MaskClip → Bool
  | .bothMC | .maxMC | .trueMC => true
  | _ => false

/-- Substring containment on character lists. -/
def listContainsSub (pat : List Char) : List Char → Bool
  | [] => pat.isEmpty
  | c :: rest => pat.isPrefixOf (c :: rest) || listContainsSub pat rest

/-- Python substring containment test `pat in s`. -/
def strContainsSub (pat s : String) : Bool :=
  listContainsSub pat.data s.data

/-- Embedding of `linear_scale` (catalog name `linear_basic`):
multiply by `m` (skipped when `m == 1`) then add `b` (skipped when
`b == 0`). -/
def linear_scale (m b : ℚ) (img : List Val) : List Val :=
  let img1 := if m ≠ 1 then img.map (fun v => valMul v (some m)) else img
  if b ≠ 0 then img1.map (fun v => valAdd v (some b)) else img1

/-- Embedding of `unlinear_scale`: subtract `b` (skipped when `b == 0`)
then divide by `m` (skipped when `m == 1`). -/
def unlinear_scale (m b : ℚ) (img : List Val) : List Val :=
  let img1 := if b ≠ 0 then img.map (fun v => valSub v (some b)) else img
  if m ≠ 1 then img1.map (fun v => valDiv v (some m)) else img1

/-- Embedding of `passive_scale` (catalog name `raw`): identity. -/
def passive_scale (img : List Val) : List Val := img

/-- Numpy `nanmin`: minimum over the non-NaN elements; NaN when there is
none (numpy emits an all-NaN warning and returns NaN). -/
def nanmin (img : List Val) : Val :=
  img.foldr
    (fun v acc =>
      match v, acc with
      | some a, some b => some (min a b)
      | some a, none => some a
      | none, x => x)
    none

/-- Numpy `nanmax`: maximum over the non-NaN elements; NaN when there is
none. -/
def nanmax (img : List Val) : Val :=
  img.foldr
    (fun v acc =>
      match v, acc with
      | some a, some b => some (max a b)
      | some a, none => some a
      | none, x => x)
    none

/-- Lines `min_in = numpy.nanmin(img) if min_in is None else min_in` and
`max_in = numpy.nanmax(img) if max_in is None else max_in` of
`linear_flexible_scale`: a `none` keyword argument means auto-compute. -/
def rawInputRange (img : List Val) (min_in max_in : Option ℚ) : Val × Val :=
  ((match min_in with | some q => some q | none => nanmin img),
   (match max_in with | some q => some q | none => nanmax img))

/-- Lines `if min_in == max_in: max_in = min_in + 1.0` of
`linear_flexible_scale` (the degenerate-range nudge; note a NaN range
never compares equal, mirroring Python float equality). -/
def nudgeRange : Val × Val → Val × Val
  | (mi, ma) => if valEq mi ma then (mi, valAdd mi (some 1)) else (mi, ma)

/-- The multiply-then-add application of computed linear parameters
(source lines `if m != 1: numpy.multiply(img, m, img)` and
`if b != 0: numpy.add(img, b, img)` of `linear_flexible_scale`): the
Python `!=` test is true when the parameter is NaN, and `valEq`
returning false in that case applies the operation, exactly as numpy
does. -/
def applyLinear (m b : Val) (img : List Val) : List Val :=
  let img1 := if valEq m (some 1) then img else img.map (fun v => valMul v m)
  if valEq b (some 0) then img1 else img1.map (fun v => valAdd v b)

/-- Embedding of `linear_flexible_scale`: computes the linear parameters
`m` and `b` from the requested output range and the (possibly
auto-computed, possibly nudged) input range, then applies `x * m + b`
with the identity-coefficient skips. -/
def linear_flexible_scale (min_out max_out : ℚ) (min_in max_in : Option ℚ)
    (flip : Bool) (offset : ℚ) (img : List Val) : List Val :=
  let min_out := if offset ≠ 0 then min_out + offset else min_out
  let r := nudgeRange (rawInputRange img min_in max_in)
  let mi := r.1
  let ma := r.2
  let m :=
    if flip then valDiv (some (min_out - max_out)) (valSub ma mi)
    else valDiv (some (max_out - min_out)) (valSub ma mi)
  let b :=
    if flip then valSub (some max_out) (valMul m mi)
    else valSub (some min_out) (valMul m mi)
  applyLinear m b img

/-- Embedding of `brightness_temperature_scale`: piecewise two-segment
linear scaling with the branch chosen by `img >= threshold`.  When
`units == "celsius"` the three input-domain parameters are first shifted
down by 273.15; `threshold_out` defaults to `176 / 255 * max_out`.
NaN pixels satisfy neither `>= threshold` nor `< threshold` and are left
untouched.  The quotients are exact rational arithmetic; no theorem below
exercises a zero denominator. -/
def brightness_temperature_scale (threshold min_in max_in min_out max_out : ℚ)
    (threshold_out : Option ℚ) (units : String) (img : List Val) : List Val :=
  let threshold := if units = "celsius" then threshold - 27315 / 100 else threshold
  let min_in := if units = "celsius" then min_in - 27315 / 100 else min_in
  let max_in := if units = "celsius" then max_in - 27315 / 100 else max_in
  let threshold_out := threshold_out.getD (176 / 255 * max_out)
  let low_factor := (threshold_out - max_out) / (min_in - threshold)
  let low_offset := max_out + low_factor * min_in
  let high_factor := (threshold_out - min_out) / (max_in - threshold)
  let high_offset := min_out + high_factor * max_in
  img.map
    (fun v =>
      match v with
      | none => none
      | some x =>
        if threshold ≤ x then some (high_offset - high_factor * x)
        else some (low_offset - low_factor * x))

/-- An already-loaded trollimage palette object.  The engine never looks
inside it (`water_temp_palettize` only checks that one was supplied), so
it is modelled as an opaque token. -/
def Colormap := Unit

/-- The three sequential remaps of `water_temp_palettize`:
`img[img == 150] = 31`, then `img[img == 199] = 18`, then
`img[img >= 200] -= 100`. -/
def waterTempRemap (img : List Val) : List Val :=
  let img1 := img.map (fun v => if valEq v (some 150) then some 31 else v)
  let img2 := img1.map (fun v => if valEq v (some 199) then some 18 else v)
  img2.map
    (fun v =>
      match v with
      | none => none
      | some x => if 200 ≤ x then some (x - 100) else some x)

/-- Embedding of `water_temp_palettize`: raises when no colormap was
supplied, otherwise applies the three index remaps in sequence.  (The
Python `isinstance` check against a wrong colormap type cannot arise in
the typed embedding.) -/
def water_temp_palettize (colormap : Option Colormap) (img : List Val) :
    Except String (List Val) :=
  match colormap with
  | none => .error "colormap is required for palettize rescaling"
  | some _ => .ok (waterTempRemap img)

namespace Rescaler

/-- Source line `is_colormapped = 'palettize' in method or 'colorize' in
method` of `Rescaler._rescale_data`. -/
def is_colormapped (method : String) : Bool :=
  strContainsSub "palettize" method || strContainsSub "colorize" method

/-- The clipping block of `Rescaler._rescale_data` (source lines
528-539), applied to the scaled valid subset: when `clip` is set, the
`mask_clip` mode first turns out-of-range values into the NaN sentinel,
then the subset is hard-clipped into `[1, max_out]` when `clip_zero` is
set with `min_out == 0` and no increment-by-one, and into
`[min_out, max_out]` otherwise. -/
def clipStage (good_data : List Val) (min_out max_out : ℚ) (clip : Bool)
    (mask_clip : MaskClip) (inc_by_one clip_zero : Bool) : List Val :=
  if clip then
    let g1 := if mask_clip.clipsMin then
        good_data.map (fun v => if valLt v (some min_out) then none else v)
      else good_data
    let g2 := if mask_clip.clipsMax then
        g1.map (fun v => if valLt (some max_out) v then none else v)
      else g1
    if clip_zero = true ∧ min_out = 0 ∧ inc_by_one = false then
      g2.map (clipQ 1 max_out)
    else
      g2.map (clipQ min_out max_out)
  else good_data

/-- Source line `good_data_mask &= ~mask_helper(data, numpy.nan)` of
`Rescaler._rescale_data`: the validity mask is recomputed after the
transform by re-testing for the NaN sentinel. -/
def updateMask (mask : List Bool) (data : List Val) : List Bool :=
  List.zipWith (fun m v => m && !(mask_helper none v)) mask data

/-- Source line `data[~good_data_mask] = fill_value` of
`Rescaler._rescale_data`. -/
def applyFill (mask : List Bool) (data : List Val) (fill_value : Val) :
    List Val :=
  List.zipWith (fun m v => if m then v else fill_value) mask data

/-- Source lines `if inc_by_one ...: data[good_data_mask] += 1` of
`Rescaler._rescale_data`. -/
def incStage (mask : List Bool) (data : List Val) (inc_by_one : Bool) :
    List Val :=
  if inc_by_one then
    List.zipWith (fun m v => if m then v.map (fun x => x + 1) else v)
      mask data
  else data

/-- Embedding of `Rescaler._rescale_data`.

The Python code looks the scaling function up in the `rescale_methods`
catalog and calls it with the keyword arguments of the resolved options
bundle; here the looked-up function with its options already applied is
passed as the parameter `f`, and the two options read directly by
`_rescale_data` itself (`min_out`, `max_out`) are passed explicitly.
The Python function mutates `data` and `good_data_mask` in place and
returns `data`; the embedding returns the pair (final data, final mask).
The `try/except` wrapper of the source only logs and re-raises, so it has
no effect on the data flow modelled here.  The `inc_by_one` increment is
guarded by `and not is_colormapped` in the source, which is redundant
with the early return of the colormapped branch and is therefore elided
in this branch-free position. -/
def rescaleData (method : String) (f : List Val → List Val)
    (data : List Val) (good_data_mask : List Bool)
    (min_out max_out : ℚ) (fill_value : Val)
    (clip : Bool) (mask_clip : MaskClip) (inc_by_one : Bool)
    (clip_zero : Bool) : List Val × List Bool :=
  if is_colormapped method then
    (f data, good_data_mask)
  else
    let good_data := clipStage (f (maskExtract data good_data_mask))
      min_out max_out clip mask_clip inc_by_one clip_zero
    let data2 := maskScatter data good_data_mask good_data
    let mask2 := updateMask good_data_mask data2
    let data3 := applyFill mask2 data2 fill_value
    (incStage mask2 data3 inc_by_one, mask2)

/-- Modelled from the spec: the bundle returned by
`self.get_config_options(**kwargs)` for a product whose attributes match
a rule.  The matching machinery lives in `roles.INIConfigReader`, which
is not part of the sources; per the spec (section 4.2) the bundle carries
the matched rule's `method` and parameters, and the caller-supplied
identification fields, of which only `inc_by_one` is read back by
`get_rescale_options`.  A `none` field means the rule did not set that
parameter.  `fill_out` is included to show it is overridden even when a
rule supplies it. -/
structure MatchedRuleOptions where
  method : Option String
  min_out : Option ℚ
  max_out : Option ℚ
  units : Option String
  fill_out : Option Val
  inc_by_one : Bool

/-- The fully defaulted options bundle produced by
`Rescaler.get_rescale_options`. -/
structure FinalRescaleOptions where
  method : String
  min_out : ℚ
  max_out : ℚ
  units : String
  fill_out : Val
  inc_by_one : Bool

/-- Embedding of `Rescaler.get_rescale_options` (colormap resolution
excluded: that branch only replaces a palette reference by a loaded
external palette object).  `dtype_min`/`dtype_max` stand for
`dtype2range[data_type]` (the `polar2grid.core.dtype` module is not part
of the sources; per the spec it is the representable range of the output
type), `product_units` for `gridded_product.get("units", "kelvin")`
before its default, and `fill_value` for the caller-supplied fill.
Raises when the matched options carry no `method`. -/
def get_rescale_options (rule : MatchedRuleOptions) (dtype_min dtype_max : ℚ)
    (product_units : Option String) (fill_value : Val) :
    Except String FinalRescaleOptions :=
  match rule.method with
  | none => .error "No rescaling method configured"
  | some m =>
    .ok
      { method := m
        min_out := rule.min_out.getD dtype_min
        max_out :=
          rule.max_out.getD
            (if rule.inc_by_one then dtype_max - 1 else dtype_max)
        units := rule.units.getD (product_units.getD "kelvin")
        fill_out := fill_value
        inc_by_one := rule.inc_by_one }

/-- A gridded product's data buffer: either a single band or a 3-band
(RGB) stack, mirroring the `data.ndim == 3` test of
`Rescaler.rescale_product`. -/
inductive GriddedData
  | oneBand (band : List Val)
  | threeBand (b0 b1 b2 : List Val)
deriving DecidableEq

/-- The validity mask matching a `GriddedData` buffer
(`~gridded_product.get_data_mask()`: true means usable). -/
inductive GriddedMask
  | oneBand (m : List Bool)
  | threeBand (m0 m1 m2 : List Bool)
deriving DecidableEq

/-- Embedding of `Rescaler.rescale_product` after options resolution:
`method` and `f` are the popped method name and its catalog function with
the resolved options applied, `clip` is popped with default `True`,
`separate_rgb` is read with default `True`.  A 3-band buffer with
`separate_rgb` not disabled is processed band by band through
`_rescale_data` and the three results stacked back together; otherwise
the whole (flattened, as numpy boolean indexing does) buffer is processed
at once. -/
def rescale_product (method : String) (f : List Val → List Val)
    (data : GriddedData) (mask : GriddedMask)
    (min_out max_out : ℚ) (fill_value : Val)
    (clip : Option Bool) (mask_clip : MaskClip) (inc_by_one : Bool)
    (separate_rgb : Option Bool) (clip_zero : Bool) : GriddedData :=
  let clip := clip.getD true
  match data, mask with
  | .threeBand b0 b1 b2, .threeBand m0 m1 m2 =>
    if separate_rgb.getD true then
      .threeBand
        (rescaleData method f b0 m0 min_out max_out fill_value clip
          mask_clip inc_by_one clip_zero).1
        (rescaleData method f b1 m1 min_out max_out fill_value clip
          mask_clip inc_by_one clip_zero).1
        (rescaleData method f b2 m2 min_out max_out fill_value clip
          mask_clip inc_by_one clip_zero).1
    else
      let flat := (rescaleData method f (b0 ++ b1 ++ b2) (m0 ++ m1 ++ m2)
        min_out max_out fill_value clip mask_clip inc_by_one clip_zero).1
      .threeBand (flat.take b0.length)
        ((flat.drop b0.length).take b1.length)
        ((flat.drop b0.length).drop b1.length)
  | .oneBand b, .oneBand m =>
    .oneBand (rescaleData method f b m min_out max_out fill_value clip
      mask_clip inc_by_one clip_zero).1
  | d, _ => d

/-- The lower clip bound selected by `Rescaler._rescale_data` when
`clip` is set: line 535 of the source switches the floor from `min_out`
to 1 exactly when `clip_zero` is set, `min_out == 0` and increment-by-one
is not requested. -/
def effectiveClipMin (min_out : ℚ) (inc_by_one clip_zero : Bool) : ℚ :=
  if clip_zero = true ∧ min_out = 0 ∧ inc_by_one = false then 1 else min_out

end Rescaler

/-- Whether a Python call completed without raising. -/
def exceptIsOk {ε α : Type} : Except ε α → Bool
  | .ok _ => true
  | .error _ => false

/-- The returned value of a Python call, or the empty list when it
raised. -/
def exceptOutputs {ε α : Type} : Except ε (List α) → List α
  | .ok l => l
  | .error _ => []

/-- A numpy scalar for the square-root enhancement, which genuinely
needs real square roots: `none` models NaN. -/
abbrev ValR := Option ℝ

noncomputable section SqrtScaleReal

open Classical

/-- Numpy `round`: round half to even (bankers rounding), the IEEE 754
default used by `numpy.round`. -/
def roundHalfEven (x : ℝ) : ℤ :=
  if x - Int.floor x < 1 / 2 then Int.floor x
  else if 1 / 2 < x - Int.floor x then Int.floor x + 1
  else if Even (Int.floor x) then Int.floor x else Int.floor x + 1

/-- Line `img[img < 0] = 0` of `sqrt_scale`; a NaN compares false and is
left untouched. -/
def clipNegToZero : ValR → ValR
  | none => none
  | some x => if x < 0 then some 0 else some x

/-- Numpy `sqrt`: NaN for a negative argument, NaN propagates. -/
def sqrtValR : ValR → ValR
  | none => none
  | some x => if x < 0 then none else some (Real.sqrt x)

/-- Multiplication of numpy scalars; a non-finite operand gives a
non-finite result, modelled by the sentinel. -/
def valRMul : ValR → ValR → ValR
  | some a, some b => some (a * b)
  | _, _ => none

/-- The Python `!=` test on numpy scalars, negated: a non-finite operand
always compares unequal. -/
def valREq : ValR → ValR → Bool
  | some x, some y => if x = y then true else false
  | _, _ => false

/-- Line `inner_mult = inner_mult if inner_mult is not None else
(100.0 / max_in)` of `sqrt_scale`: the default is a plain Python float
division, which raises `ZeroDivisionError` when `max_in` is zero. -/
def resolvedInnerMult (inner_mult : Option ℝ) (max_in : ℝ) :
    Except String ℝ :=
  match inner_mult with
  | some im => .ok im
  | none => if max_in = 0 then .error "float division by zero"
            else .ok (100 / max_in)

/-- Line `outer_mult = outer_mult if outer_mult is not None else
max_out / numpy.sqrt(inner_mult * max_in)` of `sqrt_scale`: numpy scalar
operations do not raise; a negative radicand gives NaN and a zero
divisor a non-finite quotient (inf, or NaN for 0/0), all modelled by
the non-finite sentinel. -/
def resolvedOuterMult (outer_mult : Option ℝ) (max_out inner max_in : ℝ) :
    ValR :=
  match outer_mult with
  | some om => some om
  | none =>
    if inner * max_in < 0 ∨ Real.sqrt (inner * max_in) = 0 then none
    else some (max_out / Real.sqrt (inner * max_in))

/-- Embedding of `sqrt_scale`: raises unless at least one of `min_out`
and `min_in` is zero; raises `ZeroDivisionError` when the inner
multiplier must be defaulted from a zero `max_in`; otherwise clips
negative inputs to zero, multiplies by the resolved inner multiplier
(skipped when it equals 1), takes the square root, multiplies by the
resolved outer multiplier (skipped when it equals 1, applied when it is
non-finite, as the Python `!=` test is then true), and rounds.  A `"%"`
units keyword first scales `max_in` by 100. -/
def sqrt_scale (min_out max_out : ℝ) (inner_mult outer_mult : Option ℝ)
    (min_in max_in : ℝ) (units : Option String) (img : List ValR) :
    Except String (List ValR) :=
  if min_out ≠ 0 ∧ min_in ≠ 0 then
    .error "sqrt_scale does not support a min_out or min_in not equal to 0"
  else
    let max_in := if units = some "%" then max_in * 100 else max_in
    match resolvedInnerMult inner_mult max_in with
    | .error e => .error e
    | .ok im =>
      let om := resolvedOuterMult outer_mult max_out im max_in
      let img1 := img.map clipNegToZero
      let img2 :=
        if im ≠ 1 then img1.map (fun v => v.map (fun x => x * im)) else img1
      let img3 := img2.map sqrtValR
      let img4 :=
        if valREq om (some 1) then img3
        else img3.map (fun v => valRMul v om)
      .ok (img4.map (fun v => v.map (fun x => (roundHalfEven x : ℝ))))

end SqrtScaleReal

/-! ## General lemmas about the list primitives -/

theorem listGetD_eq_getElem? {α : Type} (l : List α) (i : Nat) (d : α) :
    l.getD i d = (l[i]?).getD d := by
  simp [List.getD]

theorem listGetD_of_length_le {α : Type} (l : List α) (i : Nat) (d : α)
    (h : l.length ≤ i) : l.getD i d = d := by
  rw [listGetD_eq_getElem?, List.getElem?_eq_none h]
  rfl

theorem getD_true_lt (l : List Bool) (i : Nat) (h : l.getD i false = true) :
    i < l.length := by
  by_contra hn
  rw [listGetD_of_length_le l i false (Nat.le_of_not_lt hn)] at h
  exact Bool.false_ne_true h

theorem zipWith_getD {α β γ : Type} (f : α → β → γ) (a0 : α) (b0 : β) (c0 : γ) :
    ∀ (as : List α) (bs : List β) (i : Nat), i < as.length → i < bs.length →
      (List.zipWith f as bs).getD i c0 = f (as.getD i a0) (bs.getD i b0) := by
  intro as
  induction as with
  | nil => intro bs i h _; exact absurd h (Nat.not_lt_zero i)
  | cons a as ih =>
    intro bs i ha hb
    cases bs with
    | nil => exact absurd hb (Nat.not_lt_zero i)
    | cons b bs =>
      cases i with
      | zero => rfl
      | succ i =>
        simp only [List.zipWith_cons_cons, List.getD_cons_succ]
        exact ih bs i (Nat.lt_of_succ_lt_succ ha) (Nat.lt_of_succ_lt_succ hb)

theorem maskScatter_length :
    ∀ (d : List Val) (ms : List Bool) (vs : List Val),
      (maskScatter d ms vs).length = d.length := by
  intro d
  induction d with
  | nil => intro ms vs; cases ms <;> rfl
  | cons x ds ih =>
    intro ms vs
    cases ms with
    | nil => rfl
    | cons m ms =>
      cases m with
      | false => simpa [maskScatter] using ih ms vs
      | true =>
        cases vs with
        | nil => simpa [maskScatter] using ih ms []
        | cons v vs => simpa [maskScatter] using ih ms vs

theorem maskScatter_true_getD {P : Val → Prop} :
    ∀ (d : List Val) (ms : List Bool) (vs : List Val),
      ms.length = d.length →
      vs.length = (maskExtract d ms).length →
      (∀ v ∈ vs, P v) →
      ∀ i, ms.getD i false = true → P ((maskScatter d ms vs).getD i none) := by
  intro d
  induction d with
  | nil =>
    intro ms vs hlen _ _ i hm
    have : i < ms.length := getD_true_lt ms i hm
    rw [hlen] at this
    exact absurd this (Nat.not_lt_zero i)
  | cons x ds ih =>
    intro ms vs hlen hvs hP i hm
    cases ms with
    | nil => exact absurd (getD_true_lt [] i hm) (Nat.not_lt_zero i)
    | cons m ms =>
      cases m with
      | false =>
        cases i with
        | zero => exact absurd hm (by simp)
        | succ i =>
          simp only [maskScatter, if_neg (Bool.false_ne_true), List.getD_cons_succ]
          exact ih ms vs (Nat.succ_injective hlen)
            (by simpa [maskExtract] using hvs) hP i (by simpa using hm)
      | true =>
        have hext : (maskExtract (x :: ds) (true :: ms)).length
            = (maskExtract ds ms).length + 1 := by simp [maskExtract]
        cases vs with
        | nil =>
          rw [hext] at hvs
          exact absurd hvs.symm (Nat.succ_ne_zero _)
        | cons v vs =>
          cases i with
          | zero => exact hP v (List.mem_cons_self v vs)
          | succ i =>
            simp only [maskScatter, if_pos rfl, List.getD_cons_succ]
            refine ih ms vs (Nat.succ_injective hlen) ?_
              (fun w hw => hP w (List.mem_cons_of_mem v hw)) i (by simpa using hm)
            rw [hext] at hvs
            exact Nat.succ_injective hvs

/-! ## Lemmas about the stages of the masked application layer -/

theorem clipQ_spec (lo hi : ℚ) (h : lo ≤ hi) (v : Val) :
    clipQ lo hi v = none ∨
      ∃ q, clipQ lo hi v = some q ∧ lo ≤ q ∧ q ≤ hi := by
  cases v with
  | none => exact Or.inl rfl
  | some x =>
    refine Or.inr ⟨min hi (max lo x), rfl, ?_, min_le_left _ _⟩
    exact le_min h (le_max_left _ _)

namespace Rescaler

theorem clipStage_length (good_data : List Val) (min_out max_out : ℚ)
    (clip : Bool) (mask_clip : MaskClip) (inc_by_one clip_zero : Bool) :
    (clipStage good_data min_out max_out clip mask_clip inc_by_one
      clip_zero).length = good_data.length := by
  simp only [clipStage]
  split_ifs <;> simp

theorem clipStage_mem (good_data : List Val) (min_out max_out : ℚ)
    (mask_clip : MaskClip) (inc_by_one clip_zero : Bool)
    (h : Rescaler.effectiveClipMin min_out inc_by_one clip_zero ≤ max_out) :
    ∀ v ∈ clipStage good_data min_out max_out true mask_clip inc_by_one
      clip_zero,
      v = none ∨ ∃ q, v = some q ∧
        Rescaler.effectiveClipMin min_out inc_by_one clip_zero ≤ q ∧
        q ≤ max_out := by
  intro v hv
  simp only [clipStage, if_pos trivial] at hv
  by_cases hc : clip_zero = true ∧ min_out = 0 ∧ inc_by_one = false
  · rw [if_pos hc] at hv
    obtain ⟨w, _, hw⟩ := List.mem_map.mp hv
    rw [Rescaler.effectiveClipMin, if_pos hc] at h ⊢
    exact hw ▸ clipQ_spec 1 max_out h w
  · rw [if_neg hc] at hv
    obtain ⟨w, _, hw⟩ := List.mem_map.mp hv
    rw [Rescaler.effectiveClipMin, if_neg hc] at h ⊢
    exact hw ▸ clipQ_spec min_out max_out h w

theorem updateMask_length (mask : List Bool) (data : List Val) :
    (updateMask mask data).length = min mask.length data.length := by
  simp [updateMask]

theorem updateMask_getD (mask : List Bool) (data : List Val) (i : Nat)
    (hm : i < mask.length) (hd : i < data.length) :
    (updateMask mask data).getD i false
      = (mask.getD i false && !(data.getD i none).isNone) := by
  rw [updateMask, zipWith_getD _ false none false mask data i hm hd]
  rfl

theorem applyFill_length (mask : List Bool) (data : List Val) (fill : Val) :
    (applyFill mask data fill).length = min mask.length data.length := by
  simp [applyFill]

theorem applyFill_getD (mask : List Bool) (data : List Val) (fill : Val)
    (i : Nat) (hm : i < mask.length) (hd : i < data.length) :
    (applyFill mask data fill).getD i none
      = if mask.getD i false then data.getD i none else fill := by
  rw [applyFill, zipWith_getD _ false none none mask data i hm hd]

theorem incStage_length (mask : List Bool) (data : List Val)
    (inc_by_one : Bool) (h : mask.length = data.length) :
    (incStage mask data inc_by_one).length = data.length := by
  cases inc_by_one <;> simp [incStage, h]

theorem incStage_getD (mask : List Bool) (data : List Val)
    (inc_by_one : Bool) (i : Nat) (hm : i < mask.length)
    (hd : i < data.length) :
    (incStage mask data inc_by_one).getD i none
      = if inc_by_one then
          (if mask.getD i false then (data.getD i none).map (fun x => x + 1)
           else data.getD i none)
        else data.getD i none := by
  cases inc_by_one with
  | false => rfl
  | true =>
    rw [incStage, if_pos rfl, zipWith_getD _ false none none mask data i hm hd]
    simp

/-- Master specification of the non-palette path of
`Rescaler._rescale_data` with `clip` enabled: the final mask and data
have the input length, every pixel invalid in the recomputed mask holds
the fill value, and every pixel still valid holds a number inside the
effective clip range, shifted up by one when increment-by-one was
requested. -/
theorem rescaleData_spec (method : String) (f : List Val → List Val)
    (data : List Val) (mask : List Bool) (min_out max_out : ℚ) (fill : Val)
    (mask_clip : MaskClip) (inc_by_one clip_zero : Bool)
    (hcm : Rescaler.is_colormapped method = false)
    (hlen : mask.length = data.length)
    (hf : (f (maskExtract data mask)).length = (maskExtract data mask).length)
    (hlohi : Rescaler.effectiveClipMin min_out inc_by_one clip_zero ≤ max_out)
    (res : List Val × List Bool)
    (hres : Rescaler.rescaleData method f data mask min_out max_out fill
      true mask_clip inc_by_one clip_zero = res) :
    res.2.length = data.length ∧
    res.1.length = data.length ∧
    (∀ i, i < data.length → res.2.getD i false = false →
      res.1.getD i none = fill) ∧
    (∀ i, res.2.getD i false = true →
      (res.1.getD i none).isSome = true ∧
      Rescaler.effectiveClipMin min_out inc_by_one clip_zero
          + (if inc_by_one then (1 : ℚ) else 0)
        ≤ (res.1.getD i none).getD 0 ∧
      (res.1.getD i none).getD 0
        ≤ max_out + (if inc_by_one then (1 : ℚ) else 0)) := by
  have hne : ¬ (Rescaler.is_colormapped method = true) := by simp [hcm]
  rw [Rescaler.rescaleData, if_neg hne] at hres
  dsimp only [] at hres
  set gclip := clipStage (f (maskExtract data mask)) min_out max_out true
    mask_clip inc_by_one clip_zero with hgclip
  set data2 := maskScatter data mask gclip with hdata2
  set mask2 := updateMask mask data2 with hmask2
  set data3 := applyFill mask2 data2 fill with hdata3
  have hglen : gclip.length = (maskExtract data mask).length := by
    rw [hgclip, clipStage_length, hf]
  have hd2len : data2.length = data.length := maskScatter_length data mask gclip
  have hm2len : mask2.length = data.length := by
    rw [hmask2, updateMask_length, hlen, hd2len, Nat.min_self]
  have hd3len : data3.length = data.length := by
    rw [hdata3, applyFill_length, hm2len, hd2len, Nat.min_self]
  have hd4len : (incStage mask2 data3 inc_by_one).length = data.length := by
    rw [incStage_length mask2 data3 inc_by_one (by rw [hm2len, hd3len]), hd3len]
  have hres1 : res.1 = incStage mask2 data3 inc_by_one := by rw [← hres]
  have hres2 : res.2 = mask2 := by rw [← hres]
  rw [hres1, hres2]
  refine ⟨hm2len, hd4len, ?_, ?_⟩
  · intro i hi hfalse
    have hm2 : i < mask2.length := by rw [hm2len]; exact hi
    have hd3 : i < data3.length := by rw [hd3len]; exact hi
    have hfill : data3.getD i none = fill := by
      rw [hdata3, applyFill_getD mask2 data2 fill i hm2 (by rw [hd2len]; exact hi)]
      rw [hfalse]
      rfl
    rw [incStage_getD mask2 data3 inc_by_one i hm2 hd3]
    cases inc_by_one with
    | false =>
      rw [if_neg (by simp)]
      exact hfill
    | true =>
      rw [if_pos rfl,
        if_neg (fun hcontra => Bool.false_ne_true (hfalse.symm.trans hcontra))]
      exact hfill
  · intro i htrue
    have hi : i < data.length := by rw [← hm2len]; exact getD_true_lt mask2 i htrue
    have hm2 : i < mask2.length := by rw [hm2len]; exact hi
    have hd2 : i < data2.length := by rw [hd2len]; exact hi
    have hd3 : i < data3.length := by rw [hd3len]; exact hi
    have hchar : mask2.getD i false
        = (mask.getD i false && !(data2.getD i none).isNone) := by
      rw [hmask2]
      exact updateMask_getD mask data2 i (by rw [hlen]; exact hi) hd2
    rw [hchar] at htrue
    obtain ⟨hmi, hsome⟩ := Bool.and_eq_true_iff.mp htrue
    have hP := maskScatter_true_getD data mask gclip hlen hglen
      (clipStage_mem (f (maskExtract data mask)) min_out max_out mask_clip
        inc_by_one clip_zero hlohi) i hmi
    rw [← hdata2] at hP
    rcases hP with hnone | ⟨q, hq, hq1, hq2⟩
    · rw [hnone] at hsome
      exact absurd hsome (by simp)
    have hfv : data3.getD i none = some q := by
      rw [hdata3, applyFill_getD mask2 data2 fill i hm2 hd2, if_pos, hq]
      rw [hchar]
      exact htrue
    rw [incStage_getD mask2 data3 inc_by_one i hm2 hd3]
    cases inc_by_one with
    | false =>
      rw [if_neg (by simp)]
      rw [hfv]
      exact ⟨rfl, by simpa using hq1, by simpa using hq2⟩
    | true =>
      rw [if_pos rfl, if_pos (by rw [hchar]; exact htrue), hfv]
      refine ⟨rfl, ?_, ?_⟩
      · simpa using add_le_add_right hq1 1
      · simpa using add_le_add_right hq2 1

end Rescaler

/-! ## Claims C1, C2, C3: invariants of the masked application layer -/

/-- C1 counterexample: with the linear identity scaling (method `raw`),
buffer `[5]`, all-valid mask, fill value 5 and clip range `[0, 255]`, the
call returns a still-valid pixel holding exactly the fill value although
the pixel was not clipped (its scaled value 5 is left unchanged by the
clip, as the third conjunct shows, since it already lies inside
`[0, 255]`); the claim that a valid pixel holds the fill value only when
genuinely clipped to it is therefore false. -/
theorem claim_C1_counterexample :
    Rescaler.rescaleData "raw" passive_scale [some 5] [true] 0 255 (some 5)
        true .noneMC false false = ([some 5], [true]) ∧
      clipQ 0 255 (some 5) = some 5 ∧ (0 : ℚ) ≤ 5 ∧ (5 : ℚ) ≤ 255 := by
  decide

/-- C1 (amended): for a non-palette method processed through
`Rescaler._rescale_data` with `clip` enabled, every pixel marked invalid
in the recomputed validity mask holds exactly the supplied fill value;
and no still-valid pixel holds the fill value whenever the fill value
lies outside the effective valid-output range (the effective clip range
shifted up by one when increment-by-one is requested).  A valid pixel
may equal an in-range fill value even without having been clipped. -/
theorem claim_C1_amended (method : String) (f : List Val → List Val)
    (data : List Val) (mask : List Bool) (min_out max_out : ℚ) (fill : Val)
    (mask_clip : MaskClip) (inc_by_one clip_zero : Bool)
    (hcm : Rescaler.is_colormapped method = false)
    (hlen : mask.length = data.length)
    (hf : (f (maskExtract data mask)).length = (maskExtract data mask).length)
    (hlohi : Rescaler.effectiveClipMin min_out inc_by_one clip_zero ≤ max_out)
    (res : List Val × List Bool)
    (hres : Rescaler.rescaleData method f data mask min_out max_out fill
      true mask_clip inc_by_one clip_zero = res) :
    (∀ i, i < data.length → res.2.getD i false = false →
      res.1.getD i none = fill) ∧
    ((fill = none ∨ ∃ qf, fill = some qf ∧
        (qf < Rescaler.effectiveClipMin min_out inc_by_one clip_zero
            + (if inc_by_one then (1 : ℚ) else 0) ∨
          max_out + (if inc_by_one then (1 : ℚ) else 0) < qf)) →
      ∀ i, res.2.getD i false = true → res.1.getD i none ≠ fill) := by
  obtain ⟨-, -, hinv, hval⟩ := Rescaler.rescaleData_spec method f data mask
    min_out max_out fill mask_clip inc_by_one clip_zero hcm hlen hf hlohi
    res hres
  refine ⟨hinv, ?_⟩
  rintro (hfn | ⟨qf, hqf, hout⟩) i htrue heq
  · obtain ⟨hsome, -, -⟩ := hval i htrue
    rw [heq, hfn] at hsome
    exact Bool.false_ne_true hsome
  · obtain ⟨-, hlow, hhigh⟩ := hval i htrue
    rw [heq, hqf] at hlow hhigh
    simp only [Option.getD_some] at hlow hhigh
    rcases hout with h | h
    · exact absurd hlow (not_le.mpr h)
    · exact absurd hhigh (not_le.mpr h)

/-- C1 witness: a concrete run (fill value 300, clip range `[0, 255]`,
one NaN pixel) where the invalid pixel ends holding the fill value and
the valid pixel does not. -/
theorem claim_C1_witness :
    (Rescaler.rescaleData "raw" passive_scale [some 5, none] [true, true]
        0 255 (some 300) true .noneMC false false).1.getD 1 none
      = some 300 ∧
    (Rescaler.rescaleData "raw" passive_scale [some 5, none] [true, true]
        0 255 (some 300) true .noneMC false false).1.getD 0 none
      ≠ some 300 := by
  have h := claim_C1_amended "raw" passive_scale [some 5, none] [true, true]
    0 255 (some 300) .noneMC false false (by decide) (by decide) rfl
    (by decide) _ rfl
  exact ⟨h.1 1 (by decide) (by decide),
    h.2 (Or.inr ⟨300, rfl, Or.inr (by norm_num)⟩) 0 (by decide)⟩

/-- C2 counterexample: with `clip` set, `min_out = 0` and no
increment-by-one but `clip_zero` left at its default `False`, the value
0 survives as a valid output, so the processed subset was clipped into
`[0, 255]` and not into `[1, 255]`: the special case additionally
requires the `clip_zero` flag, contradicting the claim that no other
condition is required. -/
theorem claim_C2_counterexample :
    Rescaler.rescaleData "raw" passive_scale [some 0] [true] 0 255
        (some (-1)) true .noneMC false false = ([some 0], [true]) ∧
      ¬ ((1 : ℚ) ≤ 0) := by
  decide

/-- C2 (amended): when `clip` is set, `clip_zero` is set, `min_out` is
the output zero and increment-by-one is not requested, every still-valid
output pixel of a non-palette method lies in `[1, max_out]`, reserving
zero for the fill sentinel. -/
theorem claim_C2_amended (method : String) (f : List Val → List Val)
    (data : List Val) (mask : List Bool) (max_out : ℚ) (fill : Val)
    (mask_clip : MaskClip)
    (hcm : Rescaler.is_colormapped method = false)
    (hlen : mask.length = data.length)
    (hf : (f (maskExtract data mask)).length = (maskExtract data mask).length)
    (hmax : (1 : ℚ) ≤ max_out)
    (res : List Val × List Bool)
    (hres : Rescaler.rescaleData method f data mask 0 max_out fill
      true mask_clip false true = res) :
    ∀ i, res.2.getD i false = true →
      (res.1.getD i none).isSome = true ∧
      1 ≤ (res.1.getD i none).getD 0 ∧
      (res.1.getD i none).getD 0 ≤ max_out := by
  have hecm : Rescaler.effectiveClipMin 0 false true = 1 := by decide
  obtain ⟨-, -, -, hval⟩ := Rescaler.rescaleData_spec method f data mask
    0 max_out fill mask_clip false true hcm hlen hf (by rw [hecm]; exact hmax)
    res hres
  intro i htrue
  obtain ⟨hsome, hlow, hhigh⟩ := hval i htrue
  rw [hecm] at hlow
  simp only [if_neg Bool.false_ne_true, add_zero] at hlow hhigh
  exact ⟨hsome, hlow, hhigh⟩

/-- C2 witness: a concrete run with `clip_zero` set where the scaled
value 0 is clipped up to 1. -/
theorem claim_C2_witness :
    ((Rescaler.rescaleData "raw" passive_scale [some 0] [true] 0 255
        (some (-1)) true .noneMC false true).1.getD 0 none).isSome = true ∧
    1 ≤ ((Rescaler.rescaleData "raw" passive_scale [some 0] [true] 0 255
        (some (-1)) true .noneMC false true).1.getD 0 none).getD 0 ∧
    ((Rescaler.rescaleData "raw" passive_scale [some 0] [true] 0 255
        (some (-1)) true .noneMC false true).1.getD 0 none).getD 0 ≤ 255 :=
  claim_C2_amended "raw" passive_scale [some 0] [true] 255 (some (-1))
    .noneMC (by decide) (by decide) rfl (by norm_num) _ rfl 0 (by decide)

/-- C3 counterexample: with a negative `min_out` (here -5), clip enabled
and `inc_by_one = True`, a valid pixel ends holding the value 0 (scaled
value -1 lies inside the clip range and is then incremented to 0), so
zero can appear among valid pixels, contrary to the claim. -/
theorem claim_C3_counterexample :
    Rescaler.rescaleData "raw" passive_scale [some (-1)] [true] (-5) 255
      (some (-99)) true .noneMC true false = ([some 0], [true]) := by
  rw [Rescaler.rescaleData, if_neg (by decide)]
  norm_num [Rescaler.clipStage, maskExtract, maskScatter, Rescaler.updateMask,
    Rescaler.applyFill, Rescaler.incStage, mask_helper, clipQ, passive_scale,
    valLt, MaskClip.clipsMin, MaskClip.clipsMax, min_def, max_def]

/-- C3 (amended): for a non-palette method processed with
`inc_by_one = True` through `Rescaler._rescale_data` with `clip`
enabled, every still-valid output pixel is at least `min_out + 1`, and
provided `min_out` is nonnegative (as when it is defaulted from an
unsigned output type) the value zero never appears among valid
pixels. -/
theorem claim_C3_amended (method : String) (f : List Val → List Val)
    (data : List Val) (mask : List Bool) (min_out max_out : ℚ) (fill : Val)
    (mask_clip : MaskClip) (clip_zero : Bool)
    (hcm : Rescaler.is_colormapped method = false)
    (hlen : mask.length = data.length)
    (hf : (f (maskExtract data mask)).length = (maskExtract data mask).length)
    (hmm : min_out ≤ max_out)
    (res : List Val × List Bool)
    (hres : Rescaler.rescaleData method f data mask min_out max_out fill
      true mask_clip true clip_zero = res) :
    (∀ i, res.2.getD i false = true →
      (res.1.getD i none).isSome = true ∧
      min_out + 1 ≤ (res.1.getD i none).getD 0) ∧
    (0 ≤ min_out → ∀ i, res.2.getD i false = true →
      res.1.getD i none ≠ some 0) := by
  have hecm : Rescaler.effectiveClipMin min_out true clip_zero = min_out := by
    simp [Rescaler.effectiveClipMin]
  obtain ⟨-, -, -, hval⟩ := Rescaler.rescaleData_spec method f data mask
    min_out max_out fill mask_clip true clip_zero hcm hlen hf
    (by rw [hecm]; exact hmm) res hres
  constructor
  · intro i htrue
    obtain ⟨hsome, hlow, -⟩ := hval i htrue
    rw [hecm] at hlow
    simp only [if_pos rfl] at hlow
    exact ⟨hsome, hlow⟩
  · intro hnn i htrue heq
    obtain ⟨-, hlow, -⟩ := hval i htrue
    rw [hecm, heq] at hlow
    simp at hlow
    linarith

/-- C3 witness: a concrete increment-by-one run where the valid pixel
ends at `min_out + 1 = 1` and is not zero. -/
theorem claim_C3_witness :
    ((Rescaler.rescaleData "raw" passive_scale [some (-1)] [true] 0 255
        (some (-99)) true .noneMC true false).1.getD 0 none).isSome = true ∧
    0 + 1 ≤ ((Rescaler.rescaleData "raw" passive_scale [some (-1)] [true]
        0 255 (some (-99)) true .noneMC true false).1.getD 0 none).getD 0 ∧
    (Rescaler.rescaleData "raw" passive_scale [some (-1)] [true] 0 255
        (some (-99)) true .noneMC true false).1.getD 0 none ≠ some 0 := by
  have h := claim_C3_amended "raw" passive_scale [some (-1)] [true] 0 255
    (some (-99)) .noneMC false (by decide) (by decide) rfl (by norm_num)
    _ rfl
  obtain ⟨h1, h2⟩ := h.1 0 (by decide)
  exact ⟨h1, h2, h.2 le_rfl 0 (by decide)⟩

/-! ## Claim C8: linear / unlinear round trip -/

theorem valMul_one (v : Val) : valMul v (some 1) = v := by
  cases v <;> simp [valMul]

theorem valAdd_zero (v : Val) : valAdd v (some 0) = v := by
  cases v <;> simp [valAdd]

theorem valSub_zero (v : Val) : valSub v (some 0) = v := by
  cases v <;> simp [valSub]

theorem valDiv_one (v : Val) : valDiv v (some 1) = v := by
  cases v <;> simp [valDiv]

theorem linear_scale_eq_map (m b : ℚ) (img : List Val) :
    linear_scale m b img
      = img.map (fun v => valAdd (valMul v (some m)) (some b)) := by
  rcases eq_or_ne m 1 with hm | hm <;> rcases eq_or_ne b 0 with hb | hb <;>
    simp [linear_scale, hm, hb, List.map_map, Function.comp_def, valMul_one,
      valAdd_zero]

theorem unlinear_scale_eq_map (m b : ℚ) (img : List Val) :
    unlinear_scale m b img
      = img.map (fun v => valDiv (valSub v (some b)) (some m)) := by
  rcases eq_or_ne m 1 with hm | hm <;> rcases eq_or_ne b 0 with hb | hb <;>
    simp [unlinear_scale, hm, hb, List.map_map, Function.comp_def, valSub_zero,
      valDiv_one]

/-- C8: for every buffer and coefficients with a nonzero slope, applying
`linear_scale` (method `linear_basic`) and then `unlinear_scale` with the
same coefficients returns the original buffer exactly (the embedding
works in exact rational arithmetic, so the floating-point tolerance of
the claim is the identity). -/
theorem claim_C8_round_trip (img : List Val) (m b : ℚ) (hm : m ≠ 0) :
    unlinear_scale m b (linear_scale m b img) = img := by
  rw [linear_scale_eq_map, unlinear_scale_eq_map, List.map_map]
  have key : ∀ v : Val,
      valDiv (valSub (valAdd (valMul v (some m)) (some b)) (some b)) (some m)
        = v := by
    intro v
    cases v with
    | none => rfl
    | some x =>
      simp [valMul, valAdd, valSub, valDiv, hm]
  simp [Function.comp_def, key]

/-- C8 witness: a concrete round trip with slope 2 and offset 3 over a
buffer holding a number and a NaN. -/
theorem claim_C8_witness :
    unlinear_scale 2 3 (linear_scale 2 3 [some 1, none]) = [some 1, none] :=
  claim_C8_round_trip [some 1, none] 2 3 (by norm_num)

/-! ## Claim C9: RGB fan-out -/

/-- C9: when `separate_rgb` is not explicitly disabled, rescaling a
3-band buffer through `Rescaler.rescale_product` yields per band exactly
the result of applying `Rescaler._rescale_data` to that band alone with
the same resolved options, fill value, clip, mask_clip and inc_by_one
settings. -/
theorem claim_C9_rgb_fanout (method : String) (f : List Val → List Val)
    (b0 b1 b2 : List Val) (m0 m1 m2 : List Bool) (min_out max_out : ℚ)
    (fill : Val) (clip : Option Bool) (mask_clip : MaskClip)
    (inc_by_one : Bool) (separate_rgb : Option Bool) (clip_zero : Bool)
    (hsep : separate_rgb ≠ some false) :
    Rescaler.rescale_product method f
        (.threeBand b0 b1 b2) (.threeBand m0 m1 m2) min_out max_out fill
        clip mask_clip inc_by_one separate_rgb clip_zero
      = .threeBand
        (Rescaler.rescaleData method f b0 m0 min_out max_out fill
          (clip.getD true) mask_clip inc_by_one clip_zero).1
        (Rescaler.rescaleData method f b1 m1 min_out max_out fill
          (clip.getD true) mask_clip inc_by_one clip_zero).1
        (Rescaler.rescaleData method f b2 m2 min_out max_out fill
          (clip.getD true) mask_clip inc_by_one clip_zero).1 := by
  have hs : separate_rgb.getD true = true := by
    cases separate_rgb with
    | none => rfl
    | some bb =>
      cases bb with
      | false => exact absurd rfl hsep
      | true => rfl
  simp [Rescaler.rescale_product, hs]

/-- C9 witness: a concrete 3-band run with the default options. -/
theorem claim_C9_witness :
    Rescaler.rescale_product "raw" passive_scale
        (.threeBand [some 1] [some 2] [some 3])
        (.threeBand [true] [true] [true]) 0 255 none none .noneMC false
        none false
      = .threeBand
        (Rescaler.rescaleData "raw" passive_scale [some 1] [true] 0 255 none
          true .noneMC false false).1
        (Rescaler.rescaleData "raw" passive_scale [some 2] [true] 0 255 none
          true .noneMC false false).1
        (Rescaler.rescaleData "raw" passive_scale [some 3] [true] 0 255 none
          true .noneMC false false).1 :=
  claim_C9_rgb_fanout "raw" passive_scale [some 1] [some 2] [some 3]
    [true] [true] [true] 0 255 none none .noneMC false none false
    (by decide)

/-! ## Claim C10: palette-method dispatch and the water-temp remaps -/

/-- C10: `Rescaler._rescale_data` classifies `water_temp_palettize` as a
palette method by substring match, so the scaling function is invoked on
the full buffer and its result returned directly with the mask untouched
(skipping extraction, clipping, mask recomputation, fill assignment and
increment); and the three remaps of `water_temp_palettize` run in
sequence (150 to 31, then 199 to 18, then subtract 100 from values at or
above 200), so an input of 299 ends at 199 and is not further remapped
to 18. -/
theorem claim_C10_palette_dispatch :
    Rescaler.is_colormapped "water_temp_palettize" = true ∧
    (∀ (f : List Val → List Val) (data : List Val) (mask : List Bool)
      (min_out max_out : ℚ) (fill : Val) (clip : Bool)
      (mask_clip : MaskClip) (inc_by_one clip_zero : Bool),
      Rescaler.rescaleData "water_temp_palettize" f data mask min_out
        max_out fill clip mask_clip inc_by_one clip_zero = (f data, mask)) ∧
    water_temp_palettize (some ()) [some 150, some 199, some 299]
      = .ok [some 31, some 18, some 199] := by
  refine ⟨by decide, ?_, ?_⟩
  · intro f data mask min_out max_out fill clip mask_clip inc_by_one clip_zero
    rw [Rescaler.rescaleData, if_pos (by decide)]
  · rw [water_temp_palettize]
    norm_num [waterTempRemap, valEq]

/-! ## Claim C4: option resolution defaults -/

/-- C4: for a product matched to a rule, `Rescaler.get_rescale_options`
returns the rule's method with `min_out`/`max_out` defaulted from the
output data type's representable range, the default `max_out` reduced by
one exactly when increment-by-one is set, `units` defaulted from the
product's own units metadata (itself defaulting to kelvin), and
`fill_out` set to the caller-supplied fill value regardless of what the
rule configures. -/
theorem claim_C4_option_defaults (rule : Rescaler.MatchedRuleOptions)
    (dtype_min dtype_max : ℚ) (product_units : Option String)
    (fill_value : Val) (m : String) (hm : rule.method = some m) :
    Rescaler.get_rescale_options rule dtype_min dtype_max product_units
        fill_value
      = .ok
        { method := m
          min_out := rule.min_out.getD dtype_min
          max_out := rule.max_out.getD
            (if rule.inc_by_one then dtype_max - 1 else dtype_max)
          units := rule.units.getD (product_units.getD "kelvin")
          fill_out := fill_value
          inc_by_one := rule.inc_by_one } := by
  rw [Rescaler.get_rescale_options, hm]

/-- C4 witness: a rule carrying only a method, matched with
increment-by-one set, an 8-bit output range and a product in Celsius;
the rule's configured fill is overridden by the caller's. -/
theorem claim_C4_witness :
    Rescaler.get_rescale_options
        ⟨some "linear", none, none, none, some (some 7), true⟩ 0 255
        (some "celsius") none
      = .ok ⟨"linear", 0, 254, "celsius", none, true⟩ := by
  have h := claim_C4_option_defaults
    ⟨some "linear", none, none, none, some (some 7), true⟩ 0 255
    (some "celsius") none "linear" rfl
  norm_num at h
  exact h

/-! ## Claim C7: degenerate input range of the flexible linear scaler -/

theorem valEq_some_iff (v : Val) (c : ℚ) : valEq v (some c) = true ↔ v = some c := by
  cases v <;> simp [valEq]

theorem applyLinear_eq_map (m b : Val) (img : List Val) :
    applyLinear m b img = img.map (fun v => valAdd (valMul v m) b) := by
  unfold applyLinear
  cases hm : valEq m (some 1) with
  | true =>
    have hm1 : m = some 1 := (valEq_some_iff m 1).mp hm
    cases hb : valEq b (some 0) with
    | true =>
      have hb0 : b = some 0 := (valEq_some_iff b 0).mp hb
      simp [hm1, hb0, valMul_one, valAdd_zero]
    | false => simp [hm, hm1, valMul_one]
  | false =>
    cases hb : valEq b (some 0) with
    | true =>
      have hb0 : b = some 0 := (valEq_some_iff b 0).mp hb
      simp [hm, hb0, valAdd_zero]
    | false => simp [hm, hb, List.map_map, Function.comp_def]

theorem getD_map_some (l : List Val) (g : Val → Val) (i : Nat) (x : ℚ)
    (h : l.getD i none = some x) : (l.map g).getD i none = g (some x) := by
  rw [listGetD_eq_getElem?] at h ⊢
  rw [List.getElem?_map]
  cases e : l[i]? with
  | none =>
    rw [e] at h
    exact absurd h (by simp)
  | some v =>
    rw [e] at h
    simp only [Option.getD_some] at h ⊢
    rw [h]
    rfl

theorem applyLinear_some (M B : ℚ) (img : List Val) (i : Nat) (x : ℚ)
    (hx : img.getD i none = some x) :
    (applyLinear (some M) (some B) img).getD i none = some (x * M + B) := by
  rw [applyLinear_eq_map, getD_map_some img _ i x hx]
  rfl

/-- C7: when the resolved input range of `linear_flexible_scale` is
degenerate (`min_in == max_in`, whether supplied or auto-computed), it
does not fail: the range nudge replaces `max_in` by `min_in + 1.0` and
processing continues, and every finite (non-NaN) input pixel produces a
finite output pixel. -/
theorem claim_C7_degenerate_range (min_out max_out : ℚ)
    (min_in max_in : Option ℚ) (flip : Bool) (offset : ℚ) (img : List Val)
    (q : ℚ) (hdeg : rawInputRange img min_in max_in = (some q, some q)) :
    nudgeRange (rawInputRange img min_in max_in) = (some q, some (q + 1)) ∧
    ∀ i x, img.getD i none = some x → ∃ y,
      (linear_flexible_scale min_out max_out min_in max_in flip offset
        img).getD i none = some y := by
  have hn : nudgeRange (rawInputRange img min_in max_in)
      = (some q, some (q + 1)) := by
    rw [hdeg]
    simp [nudgeRange, valEq, valAdd]
  refine ⟨hn, ?_⟩
  intro i x hx
  simp only [linear_flexible_scale, hn]
  have hsub : valSub (some (q + 1)) (some q) = some 1 := by
    simp [valSub]
  simp only [hsub]
  cases flip with
  | false =>
    simp only [if_neg Bool.false_ne_true, valDiv_one]
    exact ⟨_, applyLinear_some _ _ img i x hx⟩
  | true =>
    simp only [if_pos rfl, valDiv_one]
    exact ⟨_, applyLinear_some _ _ img i x hx⟩

/-- C7 witness: a supplied degenerate range `min_in = max_in = 2` over a
buffer with a finite pixel and a NaN pixel. -/
theorem claim_C7_witness :
    nudgeRange (rawInputRange [some 3, none] (some 2) (some 2))
      = (some 2, some (2 + 1)) :=
  (claim_C7_degenerate_range 0 255 (some 2) (some 2) false 0 [some 3, none]
    2 rfl).1

/-! ## Claim C5: brightness temperature piecewise-linear scaling -/

/-- C5: `brightness_temperature_scale` is a two-piece linear map whose
breakpoint test `x >= threshold` selects the high branch: with
`threshold_out` unset it defaults to `176/255 * max_out`; the low branch
maps `min_in` to `max_out` and tends to `threshold_out` at the
threshold (conjunct four states the affine relation through those two
points); the high branch maps `threshold` to `threshold_out` and
`max_in` to `min_out` (conjunct five states its affine relation); and
with `units = "celsius"` the function first subtracts 273.15 from
`threshold`, `min_in` and `max_in`. -/
theorem claim_C5_brightness_temperature (threshold min_in max_in min_out
    max_out : ℚ) (h1 : min_in < threshold) (h2 : threshold < max_in) :
    brightness_temperature_scale threshold min_in max_in min_out max_out
        none "kelvin" [some min_in] = [some max_out] ∧
    brightness_temperature_scale threshold min_in max_in min_out max_out
        none "kelvin" [some threshold] = [some (176 / 255 * max_out)] ∧
    brightness_temperature_scale threshold min_in max_in min_out max_out
        none "kelvin" [some max_in] = [some min_out] ∧
    (∀ x y, x < threshold →
      brightness_temperature_scale threshold min_in max_in min_out max_out
        none "kelvin" [some x] = [some y] →
      (y - max_out) * (threshold - min_in)
        = (176 / 255 * max_out - max_out) * (x - min_in)) ∧
    (∀ x y, threshold ≤ x →
      brightness_temperature_scale threshold min_in max_in min_out max_out
        none "kelvin" [some x] = [some y] →
      (y - 176 / 255 * max_out) * (max_in - threshold)
        = (min_out - 176 / 255 * max_out) * (x - threshold)) ∧
    (∀ (img : List Val) (tho : Option ℚ),
      brightness_temperature_scale threshold min_in max_in min_out max_out
          tho "celsius" img
        = brightness_temperature_scale (threshold - 27315 / 100)
          (min_in - 27315 / 100) (max_in - 27315 / 100) min_out max_out
          tho "kelvin" img) := by
  have hlo : min_in - threshold ≠ 0 := sub_ne_zero.mpr h1.ne
  have hhi : max_in - threshold ≠ 0 := sub_ne_zero.mpr h2.ne'
  refine ⟨?_, ?_, ?_, ?_, ?_, ?_⟩
  · simp [brightness_temperature_scale, h1.not_le]
  · simp [brightness_temperature_scale, le_refl]
    field_simp
    ring
  · simp [brightness_temperature_scale, h2.le]
  · intro x y hx hbts
    simp [brightness_temperature_scale, not_le.mpr hx] at hbts
    rw [← hbts]
    field_simp
    ring
  · intro x y hx hbts
    simp [brightness_temperature_scale, hx] at hbts
    rw [← hbts]
    field_simp
    ring
  · intro img tho
    simp [brightness_temperature_scale]

/-- C5 witness: an 8-bit brightness-temperature scaling with threshold
242 K over the range 163 K to 330 K: 163 maps to 255, the threshold maps
to the default `176/255 * 255 = 176`, and 330 maps to 0. -/
theorem claim_C5_witness :
    brightness_temperature_scale 242 163 330 0 255 none "kelvin" [some 163]
        = [some 255] ∧
    brightness_temperature_scale 242 163 330 0 255 none "kelvin" [some 242]
        = [some 176] ∧
    brightness_temperature_scale 242 163 330 0 255 none "kelvin" [some 330]
        = [some 0] := by
  have h := claim_C5_brightness_temperature 242 163 330 0 255 (by norm_num)
    (by norm_num)
  obtain ⟨ha, hb, hc, -⟩ := h
  norm_num at hb
  exact ⟨ha, hb, hc⟩

/-! ## Claim C6: the square-root enhancement -/

theorem roundHalfEven_nonneg (x : ℝ) (hx : 0 ≤ x) : 0 ≤ roundHalfEven x := by
  have hf : (0 : ℤ) ≤ Int.floor x := Int.le_floor.mpr (by exact_mod_cast hx)
  unfold roundHalfEven
  split_ifs <;> omega

theorem mem_map_sqrtValR_nonneg (l : List ValR) :
    ∀ w ∈ l.map sqrtValR, ∀ u : ℝ, w = some u → 0 ≤ u := by
  intro w hw u hwu
  obtain ⟨z, -, hz⟩ := List.mem_map.mp hw
  rw [← hz] at hwu
  cases z with
  | none => exact absurd hwu (by simp [sqrtValR])
  | some a =>
    by_cases ha : a < 0
    · rw [sqrtValR, if_pos ha] at hwu
      exact absurd hwu (by simp)
    · rw [sqrtValR, if_neg ha] at hwu
      rw [← Option.some.inj hwu]
      exact Real.sqrt_nonneg a

theorem valREq_eq_some {a : ValR} {c : ℝ} (h : valREq a (some c) = true) :
    a = some c := by
  cases a with
  | none => exact absurd h (by simp [valREq])
  | some x =>
    by_cases hx : x = c
    · rw [hx]
    · simp only [valREq] at h
      rw [if_neg hx] at h
      exact absurd h Bool.false_ne_true

/-- C6 counterexample: with a negative caller-supplied `outer_mult` (here
-1) and a zero-anchored range, `sqrt_scale` succeeds and produces the
negative output -1, refuting the unconditional no-negative-outputs
part of the claim. -/
theorem claim_C6_counterexample :
    sqrt_scale 0 255 (some 1) (some (-1)) 0 1 none [some 1]
      = .ok [some (-1)] ∧ ((-1 : ℝ) < 0) := by
  constructor
  · rw [sqrt_scale, if_neg (by simp)]
    have hfl : Int.floor (-1 : ℝ) = -1 := by
      rw [show (-1 : ℝ) = ((-1 : ℤ) : ℝ) by norm_num, Int.floor_intCast]
    have hfr : Int.fract (-1 : ℝ) = 0 := by
      rw [show (-1 : ℝ) = ((-1 : ℤ) : ℝ) by norm_num, Int.fract_intCast]
    norm_num [resolvedInnerMult, resolvedOuterMult, clipNegToZero, sqrtValR,
      roundHalfEven, Real.sqrt_one, hfl, hfr, valREq, valRMul]
  · norm_num

/-- C6 (amended): `sqrt_scale` raises the unsupported-parameter error
exactly when `min_out` and `min_in` are both nonzero; when at most one
of them is nonzero it raises `ZeroDivisionError` if the inner multiplier
must be defaulted from a zero (percentage-adjusted) `max_in` (the plain
Python division `100.0 / max_in`), and succeeds otherwise; and whenever
the resolved outer multiplier, if it is a number at all, is nonnegative,
every non-NaN output value is nonnegative and integral after the final
rounding step. -/
theorem claim_C6_amended (min_out max_out : ℝ)
    (inner_mult outer_mult : Option ℝ) (min_in max_in : ℝ)
    (units : Option String) (img : List ValR) :
    ((min_out ≠ 0 ∧ min_in ≠ 0) →
      sqrt_scale min_out max_out inner_mult outer_mult min_in max_in units
        img = .error
          "sqrt_scale does not support a min_out or min_in not equal to 0") ∧
    ((min_out = 0 ∨ min_in = 0) → inner_mult = none →
      (if units = some "%" then max_in * 100 else max_in) = 0 →
      sqrt_scale min_out max_out inner_mult outer_mult min_in max_in units
        img = .error "float division by zero") ∧
    ((min_out = 0 ∨ min_in = 0) →
      (inner_mult ≠ none ∨
        (if units = some "%" then max_in * 100 else max_in) ≠ 0) →
      exceptIsOk (sqrt_scale min_out max_out inner_mult outer_mult min_in
        max_in units img) = true) ∧
    ((∀ im c, resolvedInnerMult inner_mult
          (if units = some "%" then max_in * 100 else max_in) = .ok im →
        resolvedOuterMult outer_mult max_out im
          (if units = some "%" then max_in * 100 else max_in) = some c →
        0 ≤ c) →
      ∀ v ∈ exceptOutputs (sqrt_scale min_out max_out inner_mult outer_mult
          min_in max_in units img),
        ∀ x : ℝ, v = some x → 0 ≤ x ∧ ∃ n : ℤ, x = (n : ℝ)) := by
  refine ⟨?_, ?_, ?_, ?_⟩
  · intro h
    rw [sqrt_scale, if_pos h]
  · intro h hin hmz
    have hc : ¬ (min_out ≠ 0 ∧ min_in ≠ 0) := by tauto
    subst hin
    rw [sqrt_scale, if_neg hc]
    simp only [resolvedInnerMult]
    rw [if_pos hmz]
  · intro h hok
    have hc : ¬ (min_out ≠ 0 ∧ min_in ≠ 0) := by tauto
    rw [sqrt_scale, if_neg hc]
    rcases hok with hin | hmz
    · cases inner_mult with
      | none => exact absurd rfl hin
      | some c => rfl
    · cases inner_mult with
      | some c => rfl
      | none =>
        simp only [resolvedInnerMult]
        rw [if_neg hmz]
        rfl
  · intro hom v hv x hvx
    by_cases hc : min_out ≠ 0 ∧ min_in ≠ 0
    · rw [sqrt_scale, if_pos hc] at hv
      simp [exceptOutputs] at hv
    · rw [sqrt_scale, if_neg hc] at hv
      dsimp only [] at hv
      cases hinner : resolvedInnerMult inner_mult
          (if units = some "%" then max_in * 100 else max_in) with
      | error e =>
        rw [hinner] at hv
        simp [exceptOutputs] at hv
      | ok im =>
        rw [hinner] at hv
        dsimp only [exceptOutputs] at hv
        obtain ⟨w, hw, hvw⟩ := List.mem_map.mp hv
        cases w with
        | none =>
          rw [← hvw] at hvx
          exact absurd hvx (by simp)
        | some u =>
          rw [← hvw] at hvx
          have hxu : x = ((roundHalfEven u : ℤ) : ℝ) :=
            (Option.some.inj hvx).symm
          have hu : 0 ≤ u := by
            by_cases h4 : valREq (resolvedOuterMult outer_mult max_out im
                (if units = some "%" then max_in * 100 else max_in))
                (some 1) = true
            · rw [if_pos h4] at hw
              exact mem_map_sqrtValR_nonneg _ (some u) hw u rfl
            · rw [if_neg h4] at hw
              obtain ⟨w2, hw2, hw2u⟩ := List.mem_map.mp hw
              cases hom2 : resolvedOuterMult outer_mult max_out im
                  (if units = some "%" then max_in * 100 else max_in) with
              | none =>
                rw [hom2] at hw2u
                cases w2 <;> simp [valRMul] at hw2u
              | some c =>
                rw [hom2] at hw2u
                cases w2 with
                | none => exact absurd hw2u (by simp [valRMul])
                | some z =>
                  have hz : 0 ≤ z :=
                    mem_map_sqrtValR_nonneg _ (some z) hw2 z rfl
                  have hzc : z * c = u := Option.some.inj hw2u
                  rw [← hzc]
                  exact mul_nonneg hz (hom im c hinner hom2)
          constructor
          · rw [hxu]
            exact_mod_cast roundHalfEven_nonneg u hu
          · exact ⟨roundHalfEven u, hxu⟩

/-- C6 witness: both anchors nonzero raises the unsupported-parameter
error; a zero-anchored call with an unset inner multiplier and a zero
`max_in` raises the float-division error; and a zero-anchored call with
a nonzero `max_in` succeeds. -/
theorem claim_C6_witness :
    sqrt_scale 1 255 none none 1 1 none []
        = .error
          "sqrt_scale does not support a min_out or min_in not equal to 0" ∧
    sqrt_scale 0 255 none none 0 0 none []
        = .error "float division by zero" ∧
    exceptIsOk (sqrt_scale 0 255 none none 0 1 none []) = true :=
  ⟨(claim_C6_amended 1 255 none none 1 1 none []).1 ⟨one_ne_zero, one_ne_zero⟩,
    (claim_C6_amended 0 255 none none 0 0 none []).2.1 (Or.inl rfl) rfl
      (by norm_num),
    (claim_C6_amended 0 255 none none 0 1 none []).2.2.1 (Or.inl rfl)
      (Or.inr (by simp))⟩

end Polar2Grid
